import Mathlib

/-!
Shallow embedding of the port reservation pool of `localstack/utils/net.py`
(`Port`, `PortNotAvailableException`, `PortRange`) together with a model of
the expiring TTL cache it relies on, and proofs of the pool's reservation
properties.
-/

/-- Network port as in the `Port` named tuple (`net.py` lines 30-43): port
number (a Python int, modelled as `Int`) and protocol name. -/
structure Port where
  port : Int
  protocol : String
deriving DecidableEq, Repr

/-- Embeds the `IntOrPort = Union[int, Port]` helper type (`net.py` line 47). -/
inductive IntOrPort where
  | int (n : Int)
  | port (p : Port)
deriving DecidableEq, Repr

/-- Embeds `Port.wrap` (`net.py` lines 38-43): wrap a bare int as a TCP port,
pass a `Port` through unchanged. -/
def Port.wrap : IntOrPort → Port
  | .int n => { port := n, protocol := "tcp" }
  | .port p => p

/-- Embeds the single exception class `PortNotAvailableException` (`net.py`
lines 237-240). `message` is the first constructor argument; `reservedPorts`
is the second argument passed at the range-exhausted raise site (`net.py`
lines 279-282) and absent at the other two raise sites. -/
structure PortNotAvailableException where
  message : String
  reservedPorts : Option (List Port)
deriving DecidableEq, Repr

/-- Runtime class of a raised exception, as Python's `type(e).__name__` would
report it: every raise site in `PortRange` constructs the one exception class
`PortNotAvailableException`. -/
def PortNotAvailableException.className (_ : PortNotAvailableException) : String :=
  "PortNotAvailableException"

/-- Python repr of a `Port` named tuple, as interpolated into messages. -/
def Port.pyrepr (p : Port) : String :=
  let n := toString p.port
  let pr := p.protocol
  s!"Port(port={n}, protocol={pr})"

/-- Message of the out-of-range raise (`net.py` lines 266-268). -/
def outOfRangeMsg (p : Port) (start stop : Int) : String :=
  let pp := p.pyrepr
  let a := toString start
  let b := toString stop
  s!"The requested port ({pp}) is not in the port range (range({a}, {b}))."

/-- Message of the already-reserved raise (`net.py` line 298). -/
def alreadyReservedMsg (p : Port) : String :=
  let pp := p.pyrepr
  s!"The given port ({pp}) is already reserved."

/-- Format string of the range-exhausted raise (`net.py` lines 279-281); the
reserved-port list travels as the second exception argument, uninterpolated. -/
def noFreePortsMsg : String :=
  "No free network ports available in the port range (currently reserved: %s)"

instance {ε α : Type} [DecidableEq ε] [DecidableEq α] : DecidableEq (Except ε α) :=
  fun a b =>
  match a, b with
  | .ok x, .ok y =>
    if h : x = y then isTrue (by rw [h]) else isFalse (fun hc => h (Except.ok.inj hc))
  | .error x, .error y =>
    if h : x = y then isTrue (by rw [h]) else isFalse (fun hc => h (Except.error.inj hc))
  | .ok _, .error _ => isFalse (fun hc => Except.noConfusion hc)
  | .error _, .ok _ => isFalse (fun hc => Except.noConfusion hc)

/-- One stored cache entry: key, stored value, absolute expiry instant. -/
structure CacheEntry where
  key : Port
  value : String
  expiresAt : Int
deriving DecidableEq, Repr

/-- Modelled from the spec: `CustomExpiryTTLCache` (imported by `net.py` from
`localstack.utils.collections`, whose source is not in this fragment), per
spec section 4.1: a bounded mapping from key to value with per-entry absolute
expiry, expiry enforced lazily at lookup, entries kept in insertion order.
The spec's eager purge of expired entries on access is observationally
invisible (every lookup already treats expired entries as absent), so it is
not mirrored as a state change. -/
structure ExpiringCache where
  maxsize : Nat
  ttl : Int
  entries : List CacheEntry
deriving DecidableEq, Repr

/-- An entry is live at instant `now` while its expiry has not yet passed. -/
def CacheEntry.live (e : CacheEntry) (now : Int) : Bool :=
  decide (now < e.expiresAt)

/-- Modelled from the spec: `get(key)` returns the value only if present and
not expired; expired entries read as absent (spec section 4.1). -/
def ExpiringCache.get (c : ExpiringCache) (now : Int) (k : Port) : Option String :=
  (c.entries.find? fun e => e.key == k && e.live now).map (·.value)

/-- Earliest expiry instant among stored entries (`none` when empty). -/
def earliestExpiry (es : List CacheEntry) : Option Int :=
  (es.map (·.expiresAt)).min?

/-- Remove the first entry expiring at instant `m`. -/
def removeFirstExpiring (m : Int) : List CacheEntry → List CacheEntry
  | [] => []
  | e :: es => if e.expiresAt = m then es else e :: removeFirstExpiring m es

/-- Modelled from the spec: capacity eviction drops the soonest-expiring
entry, earliest-inserted winning ties (spec section 4.1). -/
def evictOne (es : List CacheEntry) : List CacheEntry :=
  match earliestExpiry es with
  | none => es
  | some m => removeFirstExpiring m es

/-- Modelled from the spec: `set(key, value)` inserts or overwrites with
`expires_at = now + ttl` (the cache-wide default); when the cache is at
capacity and the key is new, the soonest-expiring entry is evicted first and
the just-inserted entry is never the one evicted (spec section 4.1). -/
def ExpiringCache.set (c : ExpiringCache) (now : Int) (k : Port) (v : String) :
    ExpiringCache :=
  let kept := c.entries.filter fun e => e.key != k
  let kept := if c.maxsize ≤ kept.length then evictOne kept else kept
  { c with entries := kept ++ [{ key := k, value := v, expiresAt := now + c.ttl }] }

/-- Modelled from the spec: `set_expiry(key, ttl)` moves the expiry of an
existing unexpired entry to `now + ttl` without changing its value; silently
a no-op when the key is absent or already expired (spec section 4.1). -/
def ExpiringCache.set_expiry (c : ExpiringCache) (now : Int) (k : Port) (ttl : Int) :
    ExpiringCache :=
  { c with entries := c.entries.map fun e =>
      if e.key == k && e.live now then { e with expiresAt := now + ttl } else e }

/-- Modelled from the spec: `keys()` lists the currently non-expired keys in
storage order (spec section 4.1). -/
def ExpiringCache.keys (c : ExpiringCache) (now : Int) : List Port :=
  (c.entries.filter fun e => e.live now).map (·.key)

/-- Embeds `port_can_be_bound` (`net.py` lines 163-185). The operating
system's answer to binding a socket on the wildcard address is the external
oracle `osBind`; an unsupported protocol name yields `false` without
consulting the oracle. -/
def port_can_be_bound (osBind : Port → Bool) (port : IntOrPort) : Bool :=
  let p := Port.wrap port
  if p.protocol = "tcp" then osBind p
  else if p.protocol = "udp" then osBind p
  else false

/-- Embeds the `PortRange` state (`net.py` lines 243-251): the configured
half-open range `[start, end)` and the reservation cache. The
`threading.RLock` has no shallow counterpart; the operations below are the
lock-serialized semantics of the methods. -/
structure PortRange where
  start : Int
  «end» : Int
  portsCache : ExpiringCache
deriving DecidableEq, Repr

/-- Embeds `PortRange.__init__` (`net.py` lines 246-251): any integer pair is
accepted unchecked, and the cache starts empty with `maxsize=100, ttl=6`. -/
def PortRange.init (start stop : Int) : PortRange :=
  { start := start, «end» := stop,
    portsCache := { maxsize := 100, ttl := 6, entries := [] } }

/-- Embeds `PortRange.is_port_reserved` (`net.py` lines 284-286). -/
def PortRange.is_port_reserved (pr : PortRange) (now : Int) (port : IntOrPort) : Bool :=
  let p := Port.wrap port
  (pr.portsCache.get now p).isSome

/-- Embeds `PortRange._try_reserve_port` (`net.py` lines 288-298), threading
the cache state explicitly: the pair holds the Python return/raise outcome and
the pool state afterwards. `if duration:` is Python truthiness: `None` and
`0` are falsy, so `set_expiry` runs only for a nonzero explicit duration. -/
def PortRange.try_reserve_port (osBind : Port → Bool) (now : Int) (pr : PortRange)
    (port : IntOrPort) (duration : Option Int) :
    Except PortNotAvailableException Int × PortRange :=
  let p := Port.wrap port
  if !pr.is_port_reserved now (.port p) && port_can_be_bound osBind (.port p) then
    let c := pr.portsCache.set now p "__reserved__"
    let c := match duration with
      | some d => if d = 0 then c else c.set_expiry now p d
      | none => c
    (.ok p.port, { pr with portsCache := c })
  else
    (.error { message := alreadyReservedMsg p, reservedPorts := none }, pr)

/-- The `for port_in_range in ports_range` loop of `reserve_port` together
with the final range-exhausted raise (`net.py` lines 272-282): try each port
number in ascending order, return the first success, swallow each
`PortNotAvailableException`; `fuel` counts the ports left in the range. -/
def PortRange.reserveScan (osBind : Port → Bool) (now : Int) (duration : Option Int) :
    PortRange → Int → Nat → Except PortNotAvailableException Int × PortRange
  | pr, _, 0 =>
    (.error { message := noFreePortsMsg,
              reservedPorts := some (pr.portsCache.keys now) }, pr)
  | pr, p, fuel + 1 =>
    match pr.try_reserve_port osBind now (.int p) duration with
    | (.ok n, pr2) => (.ok n, pr2)
    | (.error _, pr2) => PortRange.reserveScan osBind now duration pr2 (p + 1) fuel

/-- Embeds `PortRange.reserve_port` (`net.py` lines 253-282). Python's
`port.port not in range(start, end)` is the half-open interval test; the
body of `with self._ports_lock` is embedded directly as the lock-serialized
semantics. -/
def PortRange.reserve_port (osBind : Port → Bool) (now : Int) (pr : PortRange)
    (port : Option IntOrPort) (duration : Option Int) :
    Except PortNotAvailableException Int × PortRange :=
  match port with
  | some q =>
    let p := Port.wrap q
    if pr.start ≤ p.port ∧ p.port < pr.«end» then
      pr.try_reserve_port osBind now (.port p) duration
    else
      (.error { message := outOfRangeMsg p pr.start pr.«end»,
                reservedPorts := none }, pr)
  | none =>
    PortRange.reserveScan osBind now duration pr pr.start (pr.«end» - pr.start).toNat

/-- Net time-to-live an inserted reservation ends up with: the cache default
unless a nonzero duration was passed (the `if duration:` truthiness test of
`_try_reserve_port`). -/
def effectiveTTL (dflt : Int) (duration : Option Int) : Int :=
  match duration with
  | none => dflt
  | some d => if d = 0 then dflt else d

/-- The stored expiry instant of the (first) entry under key `p`, if any. -/
def cacheExpiryOf (c : ExpiringCache) (p : Port) : Option Int :=
  (c.entries.find? fun e => e.key == p).map (·.expiresAt)

/-- A port number succeeds in the ascending scan at instant `now` exactly
when it is not currently reserved and the bind probe succeeds. -/
def scanFree (osBind : Port → Bool) (now : Int) (pr : PortRange) (k : Int) : Bool :=
  !pr.is_port_reserved now (.int k) && port_can_be_bound osBind (.int k)

/-- Whether a reserve outcome is a Python return (no exception raised). -/
def resultOk (r : Except PortNotAvailableException Int) : Bool :=
  match r with
  | .ok _ => true
  | .error _ => false

/-- The guard of `_try_reserve_port`: the port has no live reservation and the
bind probe succeeds. Stated on the unwrapped argument; it agrees with the
guard on the wrapped port because both callees wrap internally. -/
def tryCond (osBind : Port → Bool) (now : Int) (pr : PortRange) (q : IntOrPort) : Bool :=
  !pr.is_port_reserved now q && port_can_be_bound osBind q

/-- No entry of the list is stored under key `k`. -/
def NoKey (l : List CacheEntry) (k : Port) : Prop :=
  ∀ x ∈ l, x.key ≠ k

@[simp] theorem Port.wrap_port (p : Port) : Port.wrap (.port p) = p := rfl

@[simp] theorem Port.wrap_int (n : Int) :
    Port.wrap (.int n) = { port := n, protocol := "tcp" } := rfl

theorem tryCond_wrap (osBind : Port → Bool) (now : Int) (pr : PortRange) (q : IntOrPort) :
    tryCond osBind now pr (.port (Port.wrap q)) = tryCond osBind now pr q := rfl

theorem scanFree_eq_tryCond (osBind : Port → Bool) (now : Int) (pr : PortRange) (k : Int) :
    scanFree osBind now pr k = tryCond osBind now pr (.int k) := rfl

theorem try_reserve_eq (osBind : Port → Bool) (now : Int) (pr : PortRange)
    (q : IntOrPort) (duration : Option Int) :
    pr.try_reserve_port osBind now q duration =
      if tryCond osBind now pr q then
        (.ok (Port.wrap q).port,
         { pr with portsCache :=
            match duration with
            | some d =>
              if d = 0 then pr.portsCache.set now (Port.wrap q) "__reserved__"
              else (pr.portsCache.set now (Port.wrap q) "__reserved__").set_expiry
                now (Port.wrap q) d
            | none => pr.portsCache.set now (Port.wrap q) "__reserved__" })
      else
        (.error { message := alreadyReservedMsg (Port.wrap q), reservedPorts := none },
         pr) := rfl

theorem reserve_some_eq (osBind : Port → Bool) (now : Int) (pr : PortRange)
    (q : IntOrPort) (duration : Option Int) :
    pr.reserve_port osBind now (some q) duration =
      if pr.start ≤ (Port.wrap q).port ∧ (Port.wrap q).port < pr.«end» then
        pr.try_reserve_port osBind now (.port (Port.wrap q)) duration
      else
        (.error { message := outOfRangeMsg (Port.wrap q) pr.start pr.«end»,
                  reservedPorts := none }, pr) := rfl

theorem reserve_none_eq (osBind : Port → Bool) (now : Int) (pr : PortRange)
    (duration : Option Int) :
    pr.reserve_port osBind now none duration =
      pr.reserveScan osBind now duration pr.start (pr.«end» - pr.start).toNat := rfl

theorem reserveScan_zero (osBind : Port → Bool) (now : Int) (duration : Option Int)
    (pr : PortRange) (p : Int) :
    pr.reserveScan osBind now duration p 0 =
      (.error { message := noFreePortsMsg,
                reservedPorts := some (pr.portsCache.keys now) }, pr) := rfl

theorem reserveScan_succ (osBind : Port → Bool) (now : Int) (duration : Option Int)
    (pr : PortRange) (p : Int) (n : Nat) :
    pr.reserveScan osBind now duration p (n + 1) =
      match pr.try_reserve_port osBind now (.int p) duration with
      | (.ok v, pr2) => (.ok v, pr2)
      | (.error _, pr2) => pr2.reserveScan osBind now duration (p + 1) n := rfl

theorem try_fail_eq {osBind : Port → Bool} {now : Int} {pr : PortRange}
    {q : IntOrPort} (duration : Option Int)
    (hc : tryCond osBind now pr q = false) :
    pr.try_reserve_port osBind now q duration =
      (.error { message := alreadyReservedMsg (Port.wrap q), reservedPorts := none },
       pr) := by
  rw [try_reserve_eq, if_neg (by simp [hc])]

theorem try_fst_ok {osBind : Port → Bool} {now : Int} {pr : PortRange}
    {q : IntOrPort} (duration : Option Int)
    (hc : tryCond osBind now pr q = true) :
    (pr.try_reserve_port osBind now q duration).1 = .ok (Port.wrap q).port := by
  rw [try_reserve_eq, if_pos hc]

theorem mem_removeFirstExpiring {m : Int} {x : CacheEntry} :
    ∀ {l : List CacheEntry}, x ∈ removeFirstExpiring m l → x ∈ l := by
  intro l
  induction l with
  | nil => simp [removeFirstExpiring]
  | cons e es ih =>
    simp only [removeFirstExpiring]
    split
    · intro hx
      exact List.mem_cons_of_mem _ hx
    · intro hx
      rcases List.mem_cons.mp hx with h | h
      · exact h ▸ List.mem_cons_self _ _
      · exact List.mem_cons_of_mem _ (ih h)

theorem mem_evictOne {x : CacheEntry} {l : List CacheEntry} :
    x ∈ evictOne l → x ∈ l := by
  unfold evictOne
  split
  · exact id
  · exact mem_removeFirstExpiring

theorem noKey_filter (c : ExpiringCache) (k : Port) :
    NoKey (c.entries.filter fun e => e.key != k) k := by
  intro x hx
  exact bne_iff_ne.mp (List.mem_filter.mp hx).2

theorem set_shape (c : ExpiringCache) (now : Int) (k : Port) (v : String) :
    ∃ l, (c.set now k v).entries =
        l ++ [{ key := k, value := v, expiresAt := now + c.ttl }] ∧
      NoKey l k ∧ ∀ x ∈ l, x ∈ c.entries := by
  refine ⟨if c.maxsize ≤ (c.entries.filter fun e => e.key != k).length
      then evictOne (c.entries.filter fun e => e.key != k)
      else c.entries.filter fun e => e.key != k, ?_, ?_, ?_⟩
  · simp only [ExpiringCache.set]
  · intro x hx
    split at hx
    · exact noKey_filter c k x (mem_evictOne hx)
    · exact noKey_filter c k x hx
  · intro x hx
    split at hx
    · exact (List.mem_filter.mp (mem_evictOne hx)).1
    · exact (List.mem_filter.mp hx).1

theorem find?_last {pred : CacheEntry → Bool} {l : List CacheEntry}
    (h : ∀ x ∈ l, pred x = false) (e : CacheEntry) :
    (l ++ [e]).find? pred = if pred e then some e else none := by
  induction l with
  | nil =>
    simp only [List.nil_append]
    by_cases he : pred e
    · rw [if_pos he]
      exact List.find?_cons_of_pos _ he
    · rw [if_neg he, List.find?_cons_of_neg _ he, List.find?_nil]
  | cons a as ih =>
    rw [List.cons_append, List.find?_cons_of_neg]
    · exact ih fun x hx => h x (List.mem_cons_of_mem _ hx)
    · simp [h a (List.mem_cons_self _ _)]

theorem get_shape {c : ExpiringCache} {l : List CacheEntry} {k : Port} {v : String}
    {E : Int} (hE : c.entries = l ++ [{ key := k, value := v, expiresAt := E }])
    (h : NoKey l k) (t : Int) :
    c.get t k = if t < E then some v else none := by
  unfold ExpiringCache.get
  rw [hE, find?_last]
  · by_cases ht : t < E
    · simp [CacheEntry.live, ht]
    · simp [CacheEntry.live, ht]
  · intro x hx
    simp [CacheEntry.live, beq_eq_false_iff_ne.mpr (h x hx)]

theorem cacheExpiryOf_shape {c : ExpiringCache} {l : List CacheEntry} {k : Port}
    {v : String} {E : Int}
    (hE : c.entries = l ++ [{ key := k, value := v, expiresAt := E }])
    (h : NoKey l k) :
    cacheExpiryOf c k = some E := by
  unfold cacheExpiryOf
  rw [hE, find?_last fun x hx => beq_eq_false_iff_ne.mpr (h x hx)]
  simp

theorem set_expiry_shape {c : ExpiringCache} {l : List CacheEntry} {k : Port}
    {v : String} {E : Int}
    (hE : c.entries = l ++ [{ key := k, value := v, expiresAt := E }])
    (h : NoKey l k) {now : Int} (hlive : now < E) (d : Int) :
    (c.set_expiry now k d).entries =
      l ++ [{ key := k, value := v, expiresAt := now + d }] := by
  unfold ExpiringCache.set_expiry
  dsimp only
  rw [hE, List.map_append]
  congr 1
  · calc l.map _ = l.map id := by
          refine List.map_congr_left fun x hx => ?_
          simp [beq_eq_false_iff_ne.mpr (h x hx)]
       _ = l := List.map_id l
  · simp [CacheEntry.live, hlive]

theorem is_port_reserved_iff {pr : PortRange} {t : Int} {q : Port} :
    pr.is_port_reserved t (.port q) = true ↔
      ∃ e ∈ pr.portsCache.entries, e.key = q ∧ t < e.expiresAt := by
  simp [PortRange.is_port_reserved, ExpiringCache.get, List.find?_isSome,
    CacheEntry.live, Bool.and_eq_true, beq_iff_eq]

theorem is_port_reserved_shape {pr : PortRange} {l : List CacheEntry} {k : Port}
    {v : String} {E : Int}
    (hE : pr.portsCache.entries = l ++ [{ key := k, value := v, expiresAt := E }])
    (h : NoKey l k) (t : Int) :
    pr.is_port_reserved t (.port k) = decide (t < E) := by
  simp only [PortRange.is_port_reserved, Port.wrap_port]
  rw [get_shape hE h t]
  by_cases ht : t < E
  · simp [ht]
  · simp [ht]

theorem reserve_ok_state (osBind : Port → Bool) (now : Int) (pr : PortRange)
    (q : IntOrPort) (duration : Option Int) (httl : 0 < pr.portsCache.ttl)
    (hc : tryCond osBind now pr q = true) :
    ∃ l,
      ((pr.try_reserve_port osBind now q duration).2).portsCache.entries =
        l ++ [{ key := Port.wrap q, value := "__reserved__",
                expiresAt := now + effectiveTTL pr.portsCache.ttl duration }] ∧
      NoKey l (Port.wrap q) ∧ (∀ x ∈ l, x ∈ pr.portsCache.entries) ∧
      (pr.try_reserve_port osBind now q duration).1 = .ok (Port.wrap q).port ∧
      ((pr.try_reserve_port osBind now q duration).2).start = pr.start ∧
      ((pr.try_reserve_port osBind now q duration).2).«end» = pr.«end» ∧
      ((pr.try_reserve_port osBind now q duration).2).portsCache.ttl =
        pr.portsCache.ttl := by
  obtain ⟨l, hl, hnk, hmem⟩ := set_shape pr.portsCache now (Port.wrap q) "__reserved__"
  rw [try_reserve_eq, if_pos hc]
  refine ⟨l, ?_, hnk, hmem, rfl, rfl, rfl, ?_⟩
  · match duration with
    | none => simpa [effectiveTTL] using hl
    | some d =>
      by_cases hd : d = 0
      · subst hd
        simpa [effectiveTTL] using hl
      · dsimp only
        rw [if_neg hd, set_expiry_shape hl hnk (by omega) d]
        simp [effectiveTTL, hd]
  · match duration with
    | none => rfl
    | some d =>
      by_cases hd : d = 0
      · subst hd
        rfl
      · dsimp only
        rw [if_neg hd]
        rfl

theorem reserveScan_all_fail (osBind : Port → Bool) (now : Int) (duration : Option Int)
    (pr : PortRange) :
    ∀ (n : Nat) (p : Int),
      (∀ j : Int, p ≤ j → j < p + n → scanFree osBind now pr j = false) →
      pr.reserveScan osBind now duration p n =
        (.error { message := noFreePortsMsg,
                  reservedPorts := some (pr.portsCache.keys now) }, pr) := by
  intro n
  induction n with
  | zero => intro p _; rfl
  | succ n ih =>
    intro p h
    have hp : scanFree osBind now pr p = false := h p le_rfl (by omega)
    have hfail := try_fail_eq duration
      ((scanFree_eq_tryCond osBind now pr p) ▸ hp)
    rw [reserveScan_succ, hfail]
    exact ih (p + 1) fun j h1 h2 => h j (by omega) (by omega)

theorem reserveScan_first_ok (osBind : Port → Bool) (now : Int) (duration : Option Int)
    (pr : PortRange) :
    ∀ (n : Nat) (p q : Int), p ≤ q → q < p + n →
      scanFree osBind now pr q = true →
      (∀ j : Int, p ≤ j → j < q → scanFree osBind now pr j = false) →
      (pr.reserveScan osBind now duration p n).1 = .ok q := by
  intro n
  induction n with
  | zero =>
    intro p q h1 h2 _ _
    exact absurd h2 (by omega)
  | succ n ih =>
    intro p q h1 h2 h3 h4
    by_cases hq : q = p
    · subst hq
      have hc : tryCond osBind now pr (.int q) = true :=
        (scanFree_eq_tryCond osBind now pr q) ▸ h3
      have hok := try_fst_ok duration hc
      rw [reserveScan_succ]
      rcases hr : pr.try_reserve_port osBind now (.int q) duration with ⟨r, pr2⟩
      rw [hr] at hok
      cases r with
      | ok v => simpa using hok
      | error e => simp at hok
    · have hp : scanFree osBind now pr p = false := h4 p le_rfl (by omega)
      have hfail := try_fail_eq duration
        ((scanFree_eq_tryCond osBind now pr p) ▸ hp)
      rw [reserveScan_succ, hfail]
      exact ih (p + 1) q (by omega) (by omega) h3
        fun j hj1 hj2 => h4 j (by omega) hj2

theorem reserveScan_ok_inv (osBind : Port → Bool) (now : Int) (duration : Option Int)
    (pr : PortRange) :
    ∀ (n : Nat) (p v : Int),
      (pr.reserveScan osBind now duration p n).1 = .ok v →
      p ≤ v ∧ v < p + n ∧ scanFree osBind now pr v = true ∧
        ∀ j : Int, p ≤ j → j < v → scanFree osBind now pr j = false := by
  intro n
  induction n with
  | zero =>
    intro p v h
    rw [reserveScan_zero] at h
    simp at h
  | succ n ih =>
    intro p v h
    rw [reserveScan_succ] at h
    cases hc : tryCond osBind now pr (.int p) with
    | true =>
      have hok := try_fst_ok duration hc
      rcases hr : pr.try_reserve_port osBind now (.int p) duration with ⟨r, pr2⟩
      rw [hr] at h hok
      cases r with
      | ok w =>
        simp only at h hok
        have hw : w = v := by simpa using h
        have hwp : w = p := by simpa using hok
        subst hw
        subst hwp
        refine ⟨le_rfl, by omega, (scanFree_eq_tryCond osBind now pr w) ▸ hc, ?_⟩
        intro j hj1 hj2
        exact absurd (lt_of_le_of_lt hj1 hj2) (lt_irrefl _)
      | error e => simp at hok
    | false =>
      have hfail := try_fail_eq duration hc
      rw [hfail] at h
      simp only at h
      obtain ⟨ih1, ih2, ih3, ih4⟩ := ih (p + 1) v h
      refine ⟨by omega, by omega, ih3, ?_⟩
      intro j hj1 hj2
      by_cases hjp : j = p
      · subst hjp
        exact (scanFree_eq_tryCond osBind now pr j) ▸ hc
      · exact ih4 j (by omega) hj2

theorem reserveScan_error_state (osBind : Port → Bool) (now : Int)
    (duration : Option Int) (pr : PortRange) :
    ∀ (n : Nat) (p : Int) (e : PortNotAvailableException),
      (pr.reserveScan osBind now duration p n).1 = .error e →
      (pr.reserveScan osBind now duration p n).2 = pr := by
  intro n
  induction n with
  | zero =>
    intro p e _
    rw [reserveScan_zero]
  | succ n ih =>
    intro p e h
    rw [reserveScan_succ] at h ⊢
    cases hc : tryCond osBind now pr (.int p) with
    | true =>
      have hok := try_fst_ok duration hc
      rcases hr : pr.try_reserve_port osBind now (.int p) duration with ⟨r, pr2⟩
      rw [hr] at h hok
      cases r with
      | ok w => simp at h
      | error e2 => simp at hok
    | false =>
      have hfail := try_fail_eq duration hc
      rw [hfail] at h ⊢
      exact ih (p + 1) e h

theorem reserve_some_ok_inRange {pr : PortRange} {osBind : Port → Bool} {now : Int}
    {q : IntOrPort} {duration : Option Int}
    (h : resultOk (pr.reserve_port osBind now (some q) duration).1 = true) :
    pr.start ≤ (Port.wrap q).port ∧ (Port.wrap q).port < pr.«end» := by
  by_contra hout
  rw [reserve_some_eq, if_neg hout] at h
  simp [resultOk] at h

theorem reserve_some_ok_cond {pr : PortRange} {osBind : Port → Bool} {now : Int}
    {q : IntOrPort} {duration : Option Int}
    (h : resultOk (pr.reserve_port osBind now (some q) duration).1 = true) :
    tryCond osBind now pr q = true := by
  have hin := reserve_some_ok_inRange h
  rw [reserve_some_eq, if_pos hin] at h
  cases hc : tryCond osBind now pr q with
  | true => rfl
  | false =>
    rw [try_fail_eq duration (show tryCond osBind now pr (.port (Port.wrap q)) = false from by
      rw [tryCond_wrap]; exact hc)] at h
    simp [resultOk] at h

theorem reserve_some_ok_eq_try {pr : PortRange} {osBind : Port → Bool} {now : Int}
    {q : IntOrPort} {duration : Option Int}
    (h : resultOk (pr.reserve_port osBind now (some q) duration).1 = true) :
    pr.reserve_port osBind now (some q) duration =
      pr.try_reserve_port osBind now (.port (Port.wrap q)) duration := by
  rw [reserve_some_eq, if_pos (reserve_some_ok_inRange h)]

/-- C3 (amended): for every requested port whose number is outside
`[start, end)`, `reserve_port` fails with a `PortNotAvailableException`
carrying the out-of-range message — the same (and only) exception class used
for unavailable ports, not a distinct error kind — and returns the pool
unchanged; the outcome is the same for every bind oracle and every cache
content, so no cache lookup or bind probe affects it. -/
theorem reserve_out_of_range_fails (pr : PortRange) (osBind : Port → Bool)
    (now : Int) (q : IntOrPort) (duration : Option Int)
    (h : (Port.wrap q).port < pr.start ∨ pr.«end» ≤ (Port.wrap q).port) :
    pr.reserve_port osBind now (some q) duration =
      (.error { message := outOfRangeMsg (Port.wrap q) pr.start pr.«end»,
                reservedPorts := none }, pr) := by
  rw [reserve_some_eq, if_neg (by omega)]

/-- C3 witness: requesting port 7000 on the pool `[5000, 5003)` raises the
out-of-range `PortNotAvailableException` and leaves the pool unchanged. -/
theorem reserve_out_of_range_fails_witness :
    (PortRange.init 5000 5003).reserve_port (fun _ => true) 0
        (some (.int 7000)) none =
      (.error { message := outOfRangeMsg { port := 7000, protocol := "tcp" } 5000 5003,
                reservedPorts := none }, PortRange.init 5000 5003) :=
  reserve_out_of_range_fails (PortRange.init 5000 5003) (fun _ => true) 0
    (.int 7000) none (by decide)

/-- C3 counterexample: on the pool `[5000, 5003)` with port 5000 reserved, an
out-of-range request (port 5003) and an already-reserved request (port 5000)
both raise an exception of the single runtime class
`PortNotAvailableException`; the out-of-range failure is not a distinct
error kind. -/
theorem out_of_range_not_distinct_error_kind :
    ((((PortRange.init 5000 5003).reserve_port (fun _ => true) 0
          (some (.int 5000)) none).2).reserve_port (fun _ => true) 0
        (some (.int 5003)) none).1 =
      .error { message := outOfRangeMsg { port := 5003, protocol := "tcp" } 5000 5003,
               reservedPorts := none } ∧
    ((((PortRange.init 5000 5003).reserve_port (fun _ => true) 0
          (some (.int 5000)) none).2).reserve_port (fun _ => true) 0
        (some (.int 5000)) none).1 =
      .error { message := alreadyReservedMsg { port := 5000, protocol := "tcp" },
               reservedPorts := none } ∧
    PortNotAvailableException.className
        { message := outOfRangeMsg { port := 5003, protocol := "tcp" } 5000 5003,
          reservedPorts := none } =
      PortNotAvailableException.className
        { message := alreadyReservedMsg { port := 5000, protocol := "tcp" },
          reservedPorts := none } :=
  ⟨by decide, by decide, rfl⟩

/-- C10: the constructor accepts any integer pair unchecked; with
`start ≥ end` the range is empty, so reserving without a port raises the
range-exhausted `PortNotAvailableException` (with an empty reserved list) and
reserving any explicit port raises the out-of-range one, the pool state is
returned unchanged either way, no bind oracle is consulted, and the
reservation cache is and stays empty. -/
theorem empty_range_reserve_always_fails (start stop : Int) (h : stop ≤ start)
    (osBind : Port → Bool) (now : Int) (duration : Option Int) :
    (PortRange.init start stop).reserve_port osBind now none duration =
      (.error { message := noFreePortsMsg, reservedPorts := some [] },
       PortRange.init start stop) ∧
    (∀ q : IntOrPort,
      (PortRange.init start stop).reserve_port osBind now (some q) duration =
        (.error { message := outOfRangeMsg (Port.wrap q) start stop,
                  reservedPorts := none }, PortRange.init start stop)) ∧
    (PortRange.init start stop).portsCache.entries = [] := by
  refine ⟨?_, ?_, rfl⟩
  · rw [reserve_none_eq]
    have h0 : ((PortRange.init start stop).«end» -
        (PortRange.init start stop).start).toNat = 0 := by
      dsimp [PortRange.init]
      omega
    rw [h0, reserveScan_zero]
    rfl
  · intro q
    rw [reserve_some_eq, if_neg (by dsimp [PortRange.init]; omega)]
    rfl

/-- C10 witness: on the pool `[5, 5)` a portless reserve raises the
range-exhausted exception with no reserved ports, leaving the pool as is. -/
theorem empty_range_reserve_always_fails_witness :
    (PortRange.init 5 5).reserve_port (fun _ => true) 0 none none =
      (.error { message := noFreePortsMsg, reservedPorts := some [] },
       PortRange.init 5 5) :=
  (empty_range_reserve_always_fails 5 5 (by decide) (fun _ => true) 0 none).1

/-- C5: every failing `reserve_port` call — out of range, already reserved,
failed bind probe, or an exhausted scan — returns the pool state (and hence
the reservation cache) exactly as it was: no entry is created or modified. -/
theorem failed_reserve_leaves_cache_unchanged (pr : PortRange)
    (osBind : Port → Bool) (now : Int) (port : Option IntOrPort)
    (duration : Option Int) (e : PortNotAvailableException)
    (h : (pr.reserve_port osBind now port duration).1 = .error e) :
    (pr.reserve_port osBind now port duration).2 = pr := by
  cases port with
  | none =>
    rw [reserve_none_eq] at h ⊢
    exact reserveScan_error_state osBind now duration pr _ pr.start e h
  | some q =>
    by_cases hin : pr.start ≤ (Port.wrap q).port ∧ (Port.wrap q).port < pr.«end»
    · rw [reserve_some_eq, if_pos hin] at h ⊢
      cases hc : tryCond osBind now pr (.port (Port.wrap q)) with
      | true =>
        have hok := try_fst_ok duration hc
        rw [hok] at h
        simp at h
      | false =>
        rw [try_fail_eq duration hc]
    · rw [reserve_some_eq, if_neg hin]

/-- C5 witness: the failing out-of-range request for port 5003 on the pool
`[5000, 5003)` leaves the pool state unchanged. -/
theorem failed_reserve_leaves_cache_unchanged_witness :
    ((PortRange.init 5000 5003).reserve_port (fun _ => true) 0
        (some (.int 5003)) none).2 = PortRange.init 5000 5003 :=
  failed_reserve_leaves_cache_unchanged (PortRange.init 5000 5003) (fun _ => true) 0
    (some (.int 5003)) none
    { message := outOfRangeMsg { port := 5003, protocol := "tcp" } 5000 5003,
      reservedPorts := none }
    (by decide)

/-- C1: with the port omitted, `reserve_port` scans the numbers of
`[start, end)` in ascending order: if no port of the range is both unreserved
and bindable it raises `PortNotAvailableException` carrying the list of
currently reserved ports and leaves the pool unchanged; it returns the first
port of the range that is unreserved and bindable; and any returned port is
strictly inside `[start, end)`, is unreserved and bindable, and every smaller
in-range port is not. -/
theorem reserve_none_returns_first_free (pr : PortRange) (osBind : Port → Bool)
    (now : Int) (duration : Option Int) :
    ((∀ j : Int, pr.start ≤ j → j < pr.«end» → scanFree osBind now pr j = false) →
      pr.reserve_port osBind now none duration =
        (.error { message := noFreePortsMsg,
                  reservedPorts := some (pr.portsCache.keys now) }, pr)) ∧
    (∀ q : Int, pr.start ≤ q → q < pr.«end» → scanFree osBind now pr q = true →
      (∀ j : Int, pr.start ≤ j → j < q → scanFree osBind now pr j = false) →
      (pr.reserve_port osBind now none duration).1 = .ok q) ∧
    (∀ v : Int, (pr.reserve_port osBind now none duration).1 = .ok v →
      pr.start ≤ v ∧ v < pr.«end» ∧ scanFree osBind now pr v = true ∧
        ∀ j : Int, pr.start ≤ j → j < v → scanFree osBind now pr j = false) := by
  refine ⟨?_, ?_, ?_⟩
  · intro h
    rw [reserve_none_eq]
    exact reserveScan_all_fail osBind now duration pr _ pr.start
      fun j h1 h2 => h j h1 (by omega)
  · intro q h1 h2 h3 h4
    rw [reserve_none_eq]
    exact reserveScan_first_ok osBind now duration pr _ pr.start q h1 (by omega) h3 h4
  · intro v h
    rw [reserve_none_eq] at h
    obtain ⟨h1, h2, h3, h4⟩ := reserveScan_ok_inv osBind now duration pr _ pr.start v h
    exact ⟨h1, by omega, h3, h4⟩

/-- C1 witness: on the fresh pool `[5000, 5003)` with every port bindable, the
portless reserve returns 5000, the first free port of the range. -/
theorem reserve_none_returns_first_free_witness :
    ((PortRange.init 5000 5003).reserve_port (fun _ => true) 0 none none).1 =
      .ok 5000 :=
  (reserve_none_returns_first_free (PortRange.init 5000 5003) (fun _ => true) 0
      none).2.1 5000 (by decide) (by decide) (by decide)
    fun j h1 h2 => absurd (lt_of_le_of_lt h1 h2) (by decide)

/-- C2: after a successful explicit reservation of port `P` at instant `t0`
on a pool with the default cache TTL of 6, `is_port_reserved P` is `true` at
exactly the instants strictly before `t0 + TTL` (TTL being the explicit
nonzero duration, else the pool default 6) and `false` from `t0 + TTL` on —
no release call involved, expiry being enforced lazily by the lookup. -/
theorem reserved_iff_before_ttl (pr : PortRange) (osBind : Port → Bool) (t0 : Int)
    (P : Port) (dur : Option Int) (httl : pr.portsCache.ttl = 6)
    (h : resultOk (pr.reserve_port osBind t0 (some (.port P)) dur).1 = true)
    (t : Int) :
    ((pr.reserve_port osBind t0 (some (.port P)) dur).2).is_port_reserved t
        (.port P) = decide (t < t0 + effectiveTTL 6 dur) := by
  have hc := reserve_some_ok_cond h
  have heq := reserve_some_ok_eq_try h
  rw [Port.wrap_port] at heq
  obtain ⟨l, hl, hnk, -, -, -, -, -⟩ :=
    reserve_ok_state osBind t0 pr (.port P) dur (by omega) hc
  rw [Port.wrap_port] at hl hnk
  rw [heq, is_port_reserved_shape hl hnk t, httl]

/-- C2 witness: reserving port 5000 on the fresh pool `[5000, 5010)` at
instant 0 with no duration makes it read as reserved at instant 3. -/
theorem reserved_iff_before_ttl_witness :
    (((PortRange.init 5000 5010).reserve_port (fun _ => true) 0
        (some (.port { port := 5000, protocol := "tcp" })) none).2).is_port_reserved 3
        (.port { port := 5000, protocol := "tcp" }) =
      decide ((3 : Int) < 0 + effectiveTTL 6 none) :=
  reserved_iff_before_ttl (PortRange.init 5000 5010) (fun _ => true) 0
    { port := 5000, protocol := "tcp" } none (by decide) (by decide) 3

/-- C4: from the moment an explicit `reserve(P)` succeeded until strictly
before its TTL expires, a second `reserve(P)` on the resulting pool fails
with the already-reserved `PortNotAvailableException` and changes nothing,
whatever the second call's bind oracle or duration; it never silently
succeeds. -/
theorem second_reserve_same_port_fails (pr : PortRange) (osBind : Port → Bool)
    (t0 : Int) (P : Port) (dur : Option Int) (httl : pr.portsCache.ttl = 6)
    (h : resultOk (pr.reserve_port osBind t0 (some (.port P)) dur).1 = true)
    (osBind2 : Port → Bool) (t1 : Int) (dur2 : Option Int)
    (h1 : t0 ≤ t1) (h2 : t1 < t0 + effectiveTTL 6 dur) :
    ((pr.reserve_port osBind t0 (some (.port P)) dur).2).reserve_port osBind2 t1
        (some (.port P)) dur2 =
      (.error { message := alreadyReservedMsg P, reservedPorts := none },
       (pr.reserve_port osBind t0 (some (.port P)) dur).2) := by
  have hin := reserve_some_ok_inRange h
  rw [Port.wrap_port] at hin
  have hc := reserve_some_ok_cond h
  have heq := reserve_some_ok_eq_try h
  rw [Port.wrap_port] at heq
  obtain ⟨l, hl, hnk, -, -, hs, he, -⟩ :=
    reserve_ok_state osBind t0 pr (.port P) dur (by omega) hc
  rw [Port.wrap_port] at hl hnk
  rw [heq]
  have hres : ((pr.try_reserve_port osBind t0 (.port P) dur).2).is_port_reserved t1
      (.port P) = true := by
    rw [is_port_reserved_shape hl hnk t1, httl]
    exact decide_eq_true h2
  have hc2 : tryCond osBind2 t1 ((pr.try_reserve_port osBind t0 (.port P) dur).2)
      (.port P) = false := by
    simp [tryCond, hres]
  rw [reserve_some_eq]
  rw [Port.wrap_port, hs, he, if_pos hin, try_fail_eq dur2 hc2]
  rfl

/-- C4 witness: after reserving port 5000 on `[5000, 5010)` at instant 0, a
second reserve of the same port at instant 2 fails with the already-reserved
exception and leaves the pool as the first call made it. -/
theorem second_reserve_same_port_fails_witness :
    (((PortRange.init 5000 5010).reserve_port (fun _ => true) 0
        (some (.port { port := 5000, protocol := "tcp" })) none).2).reserve_port
        (fun _ => false) 2 (some (.port { port := 5000, protocol := "tcp" })) none =
      (.error { message := alreadyReservedMsg { port := 5000, protocol := "tcp" },
                reservedPorts := none },
       ((PortRange.init 5000 5010).reserve_port (fun _ => true) 0
          (some (.port { port := 5000, protocol := "tcp" })) none).2) :=
  second_reserve_same_port_fails (PortRange.init 5000 5010) (fun _ => true) 0
    { port := 5000, protocol := "tcp" } none (by decide) (by decide)
    (fun _ => false) 2 none (by decide) (by decide)

/-- C6 (amended): a successful explicit reservation of `P` returns the port
number of `P` as an integer, and the inserted cache entry expires at
`t0 + TTL` where TTL is the explicit duration when a nonzero one is given,
and the pool default of 6 seconds when the duration is omitted or zero. -/
theorem reserve_success_ttl (pr : PortRange) (osBind : Port → Bool) (t0 : Int)
    (P : Port) (dur : Option Int) (httl : pr.portsCache.ttl = 6)
    (h : resultOk (pr.reserve_port osBind t0 (some (.port P)) dur).1 = true) :
    (pr.reserve_port osBind t0 (some (.port P)) dur).1 = .ok P.port ∧
    cacheExpiryOf ((pr.reserve_port osBind t0 (some (.port P)) dur).2).portsCache P =
      some (t0 + effectiveTTL 6 dur) := by
  have hc := reserve_some_ok_cond h
  have heq := reserve_some_ok_eq_try h
  rw [Port.wrap_port] at heq
  obtain ⟨l, hl, hnk, -, hok, -, -, -⟩ :=
    reserve_ok_state osBind t0 pr (.port P) dur (by omega) hc
  rw [Port.wrap_port] at hl hnk hok
  rw [heq]
  exact ⟨hok, by rw [cacheExpiryOf_shape hl hnk, httl]⟩

/-- C6 witness: reserving port 5000 on the fresh pool `[5000, 5010)` at
instant 0 with duration 3 returns 5000 and stores expiry `0 + 3`. -/
theorem reserve_success_ttl_witness :
    ((((PortRange.init 5000 5010).reserve_port (fun _ => true) 0
        (some (.port { port := 5000, protocol := "tcp" })) (some 3)).1 =
      .ok 5000) ∧
    cacheExpiryOf (((PortRange.init 5000 5010).reserve_port (fun _ => true) 0
        (some (.port { port := 5000, protocol := "tcp" })) (some 3)).2).portsCache
        { port := 5000, protocol := "tcp" } = some (0 + effectiveTTL 6 (some 3))) :=
  reserve_success_ttl (PortRange.init 5000 5010) (fun _ => true) 0
    { port := 5000, protocol := "tcp" } (some 3) (by decide) (by decide)

/-- C6 counterexample: reserving port 5000 on `[5000, 5010)` at instant 0
with the explicit duration 0 succeeds, but the inserted entry expires at
instant 6 (the pool default TTL), not at instant `0 + 0` as a TTL equal to
the given duration would demand. -/
theorem duration_zero_entry_ttl_not_duration :
    ((((PortRange.init 5000 5010).reserve_port (fun _ => true) 0
        (some (.int 5000)) (some 0)).1 = .ok 5000) ∧
    cacheExpiryOf (((PortRange.init 5000 5010).reserve_port (fun _ => true) 0
        (some (.int 5000)) (some 0)).2).portsCache
        { port := 5000, protocol := "tcp" } = some 6 ∧
    cacheExpiryOf (((PortRange.init 5000 5010).reserve_port (fun _ => true) 0
        (some (.int 5000)) (some 0)).2).portsCache
        { port := 5000, protocol := "tcp" } ≠ some (0 + 0)) :=
  ⟨by decide, by decide, by decide⟩

/-- C9: a successful reserve with the explicit duration 0 does not produce an
immediately-expired reservation: because `if duration:` tests Python
truthiness, duration 0 is treated like an omitted duration, the inserted
entry expires at `t0 + 6` (the pool default), and the port reads as reserved
at `t0` and at exactly the instants before `t0 + 6`. -/
theorem duration_zero_treated_as_default (pr : PortRange) (osBind : Port → Bool)
    (t0 : Int) (P : Port) (httl : pr.portsCache.ttl = 6)
    (h : resultOk (pr.reserve_port osBind t0 (some (.port P)) (some 0)).1 = true) :
    cacheExpiryOf
        ((pr.reserve_port osBind t0 (some (.port P)) (some 0)).2).portsCache P =
      some (t0 + 6) ∧
    ((pr.reserve_port osBind t0 (some (.port P)) (some 0)).2).is_port_reserved t0
      (.port P) = true ∧
    ∀ t : Int,
      ((pr.reserve_port osBind t0 (some (.port P)) (some 0)).2).is_port_reserved t
        (.port P) = decide (t < t0 + 6) := by
  have hc := reserve_some_ok_cond h
  have heq := reserve_some_ok_eq_try h
  rw [Port.wrap_port] at heq
  obtain ⟨l, hl, hnk, -, -, -, -, -⟩ :=
    reserve_ok_state osBind t0 pr (.port P) (some 0) (by omega) hc
  rw [Port.wrap_port] at hl hnk
  have heff : effectiveTTL pr.portsCache.ttl (some 0) = 6 := by
    simp [effectiveTTL, httl]
  rw [heff] at hl
  rw [heq]
  refine ⟨cacheExpiryOf_shape hl hnk, ?_, fun t => is_port_reserved_shape hl hnk t⟩
  rw [is_port_reserved_shape hl hnk t0]
  exact decide_eq_true (by omega)

/-- C9 witness: reserving port 5000 on the fresh pool `[5000, 5010)` at
instant 0 with duration 0 leaves the port reserved at instant 0. -/
theorem duration_zero_treated_as_default_witness :
    (((PortRange.init 5000 5010).reserve_port (fun _ => true) 0
        (some (.port { port := 5000, protocol := "tcp" })) (some 0)).2).is_port_reserved 0
        (.port { port := 5000, protocol := "tcp" }) = true :=
  (duration_zero_treated_as_default (PortRange.init 5000 5010) (fun _ => true) 0
      { port := 5000, protocol := "tcp" } (by decide) (by decide)).2.1

theorem reserve_keeps_other_unreserved (pr : PortRange) (osBind : Port → Bool)
    (t0 : Int) (P Q : Port) (dur : Option Int) (httl : 0 < pr.portsCache.ttl)
    (hne : Q ≠ P)
    (h : resultOk (pr.reserve_port osBind t0 (some (.port P)) dur).1 = true)
    (t : Int) (hq : pr.is_port_reserved t (.port Q) = false) :
    ((pr.reserve_port osBind t0 (some (.port P)) dur).2).is_port_reserved t
      (.port Q) = false := by
  have hc := reserve_some_ok_cond h
  have heq := reserve_some_ok_eq_try h
  rw [Port.wrap_port] at heq
  obtain ⟨l, hl, hnk, hmem, -, -, -, -⟩ :=
    reserve_ok_state osBind t0 pr (.port P) dur httl hc
  rw [Port.wrap_port] at hl hnk
  rw [heq]
  cases hr : ((pr.try_reserve_port osBind t0 (.port P) dur).2).is_port_reserved t
      (.port Q) with
  | false => rfl
  | true =>
    obtain ⟨e, hel, hek, het⟩ := is_port_reserved_iff.mp hr
    rw [hl] at hel
    rcases List.mem_append.mp hel with hold | hnew
    · have hrq : pr.is_port_reserved t (.port Q) = true :=
        is_port_reserved_iff.mpr ⟨e, hmem e hold, hek, het⟩
      rw [hrq] at hq
      exact Bool.noConfusion hq
    · have he := List.mem_singleton.mp hnew
      rw [he] at hek
      exact absurd hek.symm hne

/-- C7: reservations are keyed on the (number, protocol) pair, so a TCP and a
UDP reservation on the same number are independent: successfully reserving
`(N, tcp)` never makes `is_port_reserved (N, udp)` true, and successfully
reserving `(N, udp)` never makes `is_port_reserved (N, tcp)` true. -/
theorem tcp_udp_reservations_independent (pr : PortRange) (osBind : Port → Bool)
    (t0 : Int) (N : Int) (dur : Option Int) (httl : 0 < pr.portsCache.ttl) :
    (resultOk (pr.reserve_port osBind t0
        (some (.port { port := N, protocol := "tcp" })) dur).1 = true →
      ∀ t : Int,
        pr.is_port_reserved t (.port { port := N, protocol := "udp" }) = false →
        ((pr.reserve_port osBind t0
            (some (.port { port := N, protocol := "tcp" })) dur).2).is_port_reserved t
          (.port { port := N, protocol := "udp" }) = false) ∧
    (resultOk (pr.reserve_port osBind t0
        (some (.port { port := N, protocol := "udp" })) dur).1 = true →
      ∀ t : Int,
        pr.is_port_reserved t (.port { port := N, protocol := "tcp" }) = false →
        ((pr.reserve_port osBind t0
            (some (.port { port := N, protocol := "udp" })) dur).2).is_port_reserved t
          (.port { port := N, protocol := "tcp" }) = false) := by
  constructor
  · intro h t hq
    refine reserve_keeps_other_unreserved pr osBind t0 _ _ dur httl ?_ h t hq
    intro hcon
    have hp : "udp" = "tcp" := congrArg Port.protocol hcon
    exact absurd hp (by decide)
  · intro h t hq
    refine reserve_keeps_other_unreserved pr osBind t0 _ _ dur httl ?_ h t hq
    intro hcon
    have hp : "tcp" = "udp" := congrArg Port.protocol hcon
    exact absurd hp (by decide)

/-- C7 witness: after reserving (5000, tcp) on the fresh pool `[5000, 5010)`,
the port (5000, udp) still reads as unreserved. -/
theorem tcp_udp_reservations_independent_witness :
    (((PortRange.init 5000 5010).reserve_port (fun _ => true) 0
        (some (.port { port := 5000, protocol := "tcp" })) none).2).is_port_reserved 0
        (.port { port := 5000, protocol := "udp" }) = false :=
  (tcp_udp_reservations_independent (PortRange.init 5000 5010) (fun _ => true) 0
      5000 none (by decide)).1 (by decide) 0 (by decide)
